import Mathlib

/-!
# ggquick webhook-to-pull-request pipeline: verification development

A shallow embedding of the core of the ggquick server
(`pkg/server/server.go`, together with `pkg/hooks/hooks.go` and the
`pkg/ai` data types), plus the decode stage of a superseded server
iteration (`unnamed/part_002`).  External collaborators (GitHub client,
AI generator, hooks manager) are modelled as function records returning
`Except`, and each handler additionally returns the list of collaborator
calls it made, so that "no collaborator is called" and "the generator is
invoked with ..." become provable statements.

Machine integers do not occur on the modelled paths; the token bucket of
the rate limiter uses exact rational arithmetic.
-/

namespace GGQuick

/-- Embeds Go `strings.HasPrefix` on rune lists: `hasPre p s` is true iff
`p` is an initial segment of `s`. -/
def hasPre : List Char → List Char → Bool
  | [], _ => true
  | _ :: _, [] => false
  | a :: as, b :: bs => a = b && hasPre as bs

/-- Embeds Go `strings.TrimPrefix s pre` (server.go:357): drop `pre` from
the front of `s` when present, otherwise return `s` unchanged. -/
def trimPre (s pre : String) : String :=
  if hasPre pre.data s.data then String.mk (s.data.drop pre.data.length) else s

/-- Embeds Go `strings.TrimSuffix s suf` (server.go:157): drop `suf` from
the end of `s` when present, otherwise return `s` unchanged. -/
def trimSuf (s suf : String) : String :=
  if hasPre suf.data.reverse s.data.reverse then
    String.mk (s.data.take (s.data.length - suf.data.length))
  else s

/-- Helper for `splitChar`: current field accumulated in reverse. -/
def splitCharAux (sep : Char) : List Char → List Char → List String
  | [], acc => [String.mk acc.reverse]
  | c :: cs, acc =>
      if c = sep then String.mk acc.reverse :: splitCharAux sep cs []
      else splitCharAux sep cs (c :: acc)

/-- Embeds Go `strings.Split s "/"` for a one-character separator
(server.go:157): split on every occurrence, keeping empty fields; the
empty string yields `[""]`. -/
def splitChar (sep : Char) (s : String) : List String :=
  splitCharAux sep s.data []

/-- `Config` from server.go:89-93: the in-memory repository
configuration `{repo_url, owner, name}`. -/
structure Config where
  repoURL : String
  owner : String
  name : String
deriving DecidableEq

/-- `ai.Change` from the ai types iteration used by server.go
(unnamed/part_010): a file change record. server.go only ever fills
`path` and `modified`. -/
structure Change where
  path : String
  added : List String
  removed : List String
  modified : List String
deriving DecidableEq

/-- `ai.RepoInfo` from unnamed/part_010, as constructed by
server.go:379-423.  The Go `map[string]ai.Change` is modelled as an
association list; the handler performs a single keyed insert into the
initially empty map. -/
structure RepoInfo where
  files : List String
  changes : List (String × Change)
  commitMessage : String
  branchName : String
  contributingFile : String
deriving DecidableEq

/-- `ai.PRContent` (unnamed/part_010): generated title and description. -/
structure PRContent where
  title : String
  description : String
deriving DecidableEq

/-- `hooks.PullRequestOptions` from hooks.go:31-37. -/
structure PullRequestOptions where
  title : String
  description : String
  branch : String
  baseBranch : String
  labels : List String
deriving DecidableEq

/-- The observable part of a `github.PullRequest`: number and HTML URL
(hooks.go returns the created PR; server.go reads `GetHTMLURL`). -/
structure PullRequest where
  number : Nat
  htmlURL : String
deriving DecidableEq

/-- One collaborator invocation recorded by a handler, used to state
which external calls a request provokes and with which arguments. -/
inductive CollabCall where
  | initGitHub (token owner name : String)
  | getDefaultBranch (owner name : String)
  | getDiff (owner name base head : String)
  | getCommitMessage (owner name sha : String)
  | getContributingGuide (owner name : String)
  | generatePR (info : RepoInfo)
  | createPullRequest (opts : PullRequestOptions)
deriving DecidableEq

/-- The collaborator interfaces of server.go:61-86 (AIGenerator,
GitHubClient, HooksManager), restricted to the operations the push
handler uses.  Each operation is a pure function describing what the
collaborator would answer; `Except` is the `(value, error)` pair of Go. -/
structure Collaborators where
  initGitHub : String → String → String → Except String Unit
  getDefaultBranch : String → String → Except String String
  getDiff : String → String → String → String → Except String String
  getCommitMessage : String → String → String → Except String String
  getContributingGuide : String → String → Except String String
  generatePR : RepoInfo → Except String PRContent
  createPullRequest : PullRequestOptions → Except String PullRequest

/-- Decidable equality for `Except`, so that concrete collaborator
results can be evaluated inside witnesses. -/
instance {ε α : Type} [DecidableEq ε] [DecidableEq α] :
    DecidableEq (Except ε α) := fun x y =>
  match x, y with
  | .error a, .error b =>
      if h : a = b then isTrue (by rw [h])
      else isFalse (fun hh => h (Except.error.injEq a b ▸ hh))
  | .error a, .ok b => isFalse (fun hh => Except.noConfusion hh)
  | .ok a, .error b => isFalse (fun hh => Except.noConfusion hh)
  | .ok a, .ok b =>
      if h : a = b then isTrue (by rw [h])
      else isFalse (fun hh => h (Except.ok.injEq a b ▸ hh))

/-- An HTTP response: status code and body text (`http.Error` bodies are
recorded without the trailing newline). -/
structure Response where
  status : Nat
  body : String
deriving DecidableEq

/-- The decode-relevant shape of a `/push` request body.
`json ref sha` stands for a body that `json.Decoder.Decode` accepts for
the payload struct of server.go:345-348, with `none` for an absent
field (Go leaves the field as the empty string); `text lines` stands for
a line-oriented plain-text body (which that decoder rejects);
`malformed` for any other body the decoder rejects. -/
inductive PushBody where
  | json (ref sha : Option String)
  | text (lines : List String)
  | malformed
deriving DecidableEq

/-- A `/push` HTTP request.  the server.go handler never reads the
Content-Type header; it is carried here so that this independence is a
statable fact. -/
structure PushRequest where
  method : String
  contentType : String
  body : PushBody
deriving DecidableEq

/-- The JSON decode step of server.go:349-353: decoding succeeds exactly
on `json` bodies, with absent fields defaulting to the empty string. -/
def decodePushPayload : PushBody → Option (String × String)
  | .json ref sha => some (ref.getD "", sha.getD "")
  | .text _ => none
  | .malformed => none

/-- The decode-relevant shape of a `/config` request body:
`json repoURL owner name` for a body accepted by the decoder into the
`Config` struct (absent fields decode to empty strings, folded into the
string arguments), `malformed` otherwise. -/
inductive ConfigBody where
  | json (repoURL owner name : String)
  | malformed
deriving DecidableEq

/-- A `/config` HTTP request. -/
structure ConfigRequest where
  method : String
  body : ConfigBody
deriving DecidableEq

/-- `handleConfig` from server.go:143-173.  The handler touches no
collaborator (the source never uses `s.github`, `s.ai` or `s.hooks`
there), so the embedding takes none: it maps the stored config and the
request to the response and the new stored config.  On success the
source runs only `w.WriteHeader(http.StatusOK)`: status 200, empty
body. -/
def handleConfig (st : Option Config) (req : ConfigRequest) :
    Response × Option Config :=
  if req.method ≠ "POST" then (⟨405, "Method not allowed"⟩, st)
  else match req.body with
    | .malformed => (⟨400, "Invalid request body"⟩, st)
    | .json url ow nm =>
        if ow = "" ∨ nm = "" then
          let parts := splitChar '/' (trimSuf url ".git")
          if parts.length < 2 then
            (⟨400, "Invalid repository URL format"⟩, st)
          else
            (⟨200, ""⟩,
             some ⟨url, parts.getD (parts.length - 2) "",
                   parts.getD (parts.length - 1) ""⟩)
        else (⟨200, ""⟩, some ⟨url, ow, nm⟩)

/-- Step 1 of the orchestration, server.go:370-375: ask the code host for
the default branch; on error fall back to the literal `"main"`. -/
def resolveDefaultBranch (c : Collaborators) (owner name : String) : String :=
  match c.getDefaultBranch owner name with
  | .error _ => "main"
  | .ok b => b

/-- The commit-message fallback of server.go:393-398: the commit message
fetched for the pushed SHA, or the fixed generic string when that lookup
fails. -/
def fallbackCommitMessage (c : Collaborators) (owner name sha : String) : String :=
  match c.getCommitMessage owner name sha with
  | .error _ => "feat: improve resilience in PR generation"
  | .ok m => m

/-- Step 2 of the orchestration, server.go:378-413: build the `RepoInfo`
(initially empty files/changes, branch name set, empty commit message),
then try the diff against the resolved default branch; on diff failure
fall back to the commit message (itself falling back to the generic
string).  Also returns the collaborator calls made. -/
def gatherContext (c : Collaborators) (owner name defaultBranch branchName sha : String) :
    RepoInfo × List CollabCall :=
  let info : RepoInfo := ⟨[], [], "", branchName, ""⟩
  match c.getDiff owner name defaultBranch branchName with
  | .error _ =>
      let msg := fallbackCommitMessage c owner name sha
      ({ info with commitMessage := msg,
                   changes := [(branchName, ⟨branchName, [], [], [msg]⟩)] },
       [CollabCall.getDiff owner name defaultBranch branchName,
        CollabCall.getCommitMessage owner name sha])
  | .ok diffURL =>
      ({ info with changes := [(branchName, ⟨diffURL, [], [], [diffURL]⟩)] },
       [CollabCall.getDiff owner name defaultBranch branchName])

/-- Step 3 of the orchestration, server.go:415-423: best-effort
contributing guide; a lookup error or an empty guide leaves the info
unchanged, a non-empty guide is attached. -/
def applyContributingGuide (c : Collaborators) (owner name : String)
    (info : RepoInfo) : RepoInfo :=
  match c.getContributingGuide owner name with
  | .error _ => info
  | .ok g => if g ≠ "" then { info with contributingFile := g } else info

/-- Steps 1-5 of the push orchestration, server.go:369-457 (everything
after the GitHub-client initialisation): resolve default branch with
fallback, gather change context, attach the contributing guide, generate
PR content (failure → 500), create the pull request (failure → 500,
success → 200 "ok").  Returns the response and the collaborator calls in
order. -/
def orchestrate (c : Collaborators) (cfg : Config) (branchName sha : String) :
    Response × List CollabCall :=
  let defaultBranch := resolveDefaultBranch c cfg.owner cfg.name
  let ctx := gatherContext c cfg.owner cfg.name defaultBranch branchName sha
  let info := applyContributingGuide c cfg.owner cfg.name ctx.1
  let preCalls := CollabCall.getDefaultBranch cfg.owner cfg.name ::
    ctx.2 ++ [CollabCall.getContributingGuide cfg.owner cfg.name]
  match c.generatePR info with
  | .error _ =>
      (⟨500, "Failed to generate PR content"⟩,
       preCalls ++ [CollabCall.generatePR info])
  | .ok content =>
      let opts : PullRequestOptions :=
        ⟨content.title, content.description, branchName, defaultBranch,
         ["automated-pr"]⟩
      match c.createPullRequest opts with
      | .error _ =>
          (⟨500, "Failed to create PR"⟩,
           preCalls ++ [CollabCall.generatePR info,
                        CollabCall.createPullRequest opts])
      | .ok _ =>
          (⟨200, "ok"⟩,
           preCalls ++ [CollabCall.generatePR info,
                        CollabCall.createPullRequest opts])

/-- `handlePush` from server.go:322-457.  `githubToken` stands for
`os.Getenv("GITHUB_TOKEN")`.  Order of checks as in the source: method,
stored config (the not-configured body elides the single quotes the
source puts around the suggested command), JSON payload decode, GitHub
client initialisation, then the orchestration. -/
def handlePush (c : Collaborators) (githubToken : String) (st : Option Config)
    (req : PushRequest) : Response × List CollabCall :=
  if req.method ≠ "POST" then (⟨405, "Method not allowed"⟩, [])
  else match st with
    | none =>
        (⟨400, "Repository not configured. Please run ggquick start <repository-url> first"⟩,
         [])
    | some cfg =>
        match decodePushPayload req.body with
        | none => (⟨400, "Invalid payload"⟩, [])
        | some (ref, sha) =>
            let branchName := trimPre ref "refs/heads/"
            match c.initGitHub githubToken cfg.owner cfg.name with
            | .error _ =>
                (⟨500, "Failed to initialize GitHub"⟩,
                 [CollabCall.initGitHub githubToken cfg.owner cfg.name])
            | .ok _ =>
                let res := orchestrate c cfg branchName sha
                (res.1,
                 CollabCall.initGitHub githubToken cfg.owner cfg.name :: res.2)

/-- The body of a push request as seen by the superseded server iteration
unnamed/part_002: the raw lines of the body, together with the decoded
event struct when the body is valid JSON for it (`some (ref, after,
before)`). -/
structure RawBody where
  lines : List String
  jsonEvent : Option (String × String × String)

/-- The decode stage of `handlePush` in unnamed/part_002:146-167: when
the Content-Type starts with `application/json`, JSON-decode the event
(failure → 400); otherwise read the first line of the body as the commit
SHA and synthesize the ref `refs/heads/<sha>` from it.  Returns
`(ref, sha)` on success. -/
def part002ParsePush (contentType : String) (b : RawBody) :
    Except Unit (String × String) :=
  if hasPre "application/json".data contentType.data then
    match b.jsonEvent with
    | some (ref, a, _) => .ok (ref, a)
    | none => .error ()
  else
    let sha := b.lines.headD ""
    .ok ("refs/heads/" ++ sha, sha)

/-! ## Rate limiter

`NewRateLimiter(5, 10)` (server.go:131) wraps one `rate.Limiter` per
client key.  The bucket itself lives in `golang.org/x/time/rate`, which
is not part of this repository. -/

/-- The configured token refill rate: 5 tokens per second
(server.go:131). -/
def limiterRate : ℚ := 5

/-- The configured burst size: 10 tokens (server.go:131). -/
def limiterBurst : ℕ := 10

/-- Modelled from the spec: the token-bucket state of one
`golang.org/x/time/rate.Limiter` (its source is not in this repository);
per spec §4.1 a bucket holds `{capacity, refillRate, tokens, lastRefill}`
with the capacity and rate fixed at `limiterBurst`/`limiterRate`.  Time
is a rational number of seconds. -/
structure Limiter where
  tokens : ℚ
  last : ℚ
deriving DecidableEq

/-- Modelled from the spec: continuous refill — the tokens available at
time `t`, capped at the burst size. -/
def advance (l : Limiter) (t : ℚ) : ℚ :=
  let tk := l.tokens + (t - l.last) * limiterRate
  if (limiterBurst : ℚ) < tk then (limiterBurst : ℚ) else tk

/-- Modelled from the spec: `Allow` atomically attempts to withdraw one
token at time `t`; it returns false, withdrawing nothing, when fewer
than one token is available. -/
def allow (l : Limiter) (t : ℚ) : Bool × Limiter :=
  let tk := advance l t
  if 1 ≤ tk then (true, ⟨tk - 1, t⟩) else (false, ⟨tk, t⟩)

/-- Modelled from the spec: a freshly created bucket is full. -/
def newLimiter (t : ℚ) : Limiter := ⟨(limiterBurst : ℚ), t⟩

/-- The per-client bucket map of `RateLimiter` (server.go:21-26),
`visitors map[string]*rate.Limiter`. -/
def VisitorMap : Type := String → Option Limiter

/-- `GetVisitor` (server.go:38-49): look up the bucket for a key,
creating a fresh full bucket on first sight. -/
def getVisitor (m : VisitorMap) (ip : String) (t : ℚ) : Limiter × VisitorMap :=
  match m ip with
  | some l => (l, m)
  | none =>
      let l := newLimiter t
      (l, fun k => if k = ip then some l else m k)

/-- One pass through the limiter for one request from `ip` at time `t`:
`GetVisitor` followed by `Allow`, writing the bucket back
(server.go:184-185; the write-back models the shared `*rate.Limiter`). -/
def rateLimitAllow (m : VisitorMap) (ip : String) (t : ℚ) : Bool × VisitorMap :=
  let g := getVisitor m ip t
  let a := allow g.1 t
  (a.1, fun k => if k = ip then some a.2 else g.2 k)

/-- `CleanupVisitors` (server.go:52-59): delete every entry. -/
def cleanupVisitors (_ : VisitorMap) : VisitorMap := fun _ => none

/-- The client key of the `rateLimit` middleware (server.go:179-182):
the X-Forwarded-For header when non-empty, else the remote address. -/
def clientIP (xff remoteAddr : String) : String :=
  if xff ≠ "" then xff else remoteAddr

/-- The `rateLimit` middleware (server.go:176-203): admit and run the
wrapped handler, or reject with 429 without running it. -/
def rateLimit (m : VisitorMap) (ip : String) (t : ℚ)
    (next : Unit → Response × List CollabCall) :
    Response × VisitorMap × List CollabCall :=
  let a := rateLimitAllow m ip t
  if a.1 then
    let r := next ()
    (r.1, a.2, r.2)
  else (⟨429, "Rate limit exceeded"⟩, a.2, [])

/-- A sequence of `n` limiter passes for the same key, all at time `t`
(the claim wording "within one replenishment interval"); returns the final map
and the admission results in request order. -/
def runSame (ip : String) (t : ℚ) : ℕ → VisitorMap → VisitorMap × List Bool
  | 0, m => (m, [])
  | n + 1, m =>
      let a := rateLimitAllow m ip t
      let r := runSame ip t n a.2
      (r.1, a.1 :: r.2)

/-! ## Hooks manager -/

/-- The underlying GitHub API surface used by
`Manager.CreatePullRequest` (hooks.go:81-110): `PullRequests.Create` and
`Issues.AddLabelsToIssue`, as result oracles. -/
structure GitHubAPI where
  create : String → String → String → String → String → String →
    Except String PullRequest
  addLabels : String → String → ℕ → List String → Except String Unit

/-- `Manager.CreatePullRequest` from hooks.go:81-110: error when the
GitHub client was never initialised; otherwise create the PR (head =
`opts.branch`, base = `opts.baseBranch`); then, when labels were given,
attach them; the created PR is the return value. -/
def managerCreatePullRequest (gh : Option (GitHubAPI × String × String))
    (opts : PullRequestOptions) : Except String PullRequest :=
  match gh with
  | none => .error "GitHub client not initialized"
  | some (api, owner, repo) =>
      match api.create owner repo opts.title opts.description opts.branch
          opts.baseBranch with
      | .error e => .error ("failed to create PR: " ++ e)
      | .ok pr =>
          if 0 < opts.labels.length then
            match api.addLabels owner repo pr.number opts.labels with
            | .error e => .error ("failed to add labels: " ++ e)
            | .ok _ => .ok pr
          else .ok pr

/-! ## Fixtures for witnesses and counterexamples -/

/-- A collaborator record where every operation succeeds. -/
def stubCollabs : Collaborators :=
  ⟨fun _ _ _ => .ok (), fun _ _ => .ok "develop",
   fun _ _ _ _ => .ok "https://github.com/acme/widgets/compare/x.diff",
   fun _ _ _ => .ok "fix: bug", fun _ _ => .ok "",
   fun _ => .ok ⟨"T", "D"⟩, fun _ => .ok ⟨7, "https://github.com/pr/7"⟩⟩

/-- A collaborator record where the default-branch, diff,
commit-message and contributing-guide lookups all fail. -/
def failingCollabs : Collaborators :=
  ⟨fun _ _ _ => .ok (), fun _ _ => .error "unavailable",
   fun _ _ _ _ => .error "no diff", fun _ _ _ => .error "no commit",
   fun _ _ => .error "no guide",
   fun _ => .ok ⟨"T", "D"⟩, fun _ => .ok ⟨7, "https://github.com/pr/7"⟩⟩

/-- The configuration of the running example in the spec. -/
def cfg0 : Config := ⟨"https://github.com/acme/widgets.git", "acme", "widgets"⟩

/-- The `RepoInfo` the generator receives when every lookup fails
(`failingCollabs`) for a push of `refs/heads/feature/x`. -/
def infoAllFallback : RepoInfo :=
  ⟨[], [("feature/x", ⟨"feature/x", [], [],
     ["feat: improve resilience in PR generation"]⟩)],
   "feat: improve resilience in PR generation", "feature/x", ""⟩

/-- The pull-request options submitted under `failingCollabs` (base
falls back to "main"). -/
def optsMain : PullRequestOptions :=
  ⟨"T", "D", "feature/x", "main", ["automated-pr"]⟩

/-- The pull-request options submitted under `stubCollabs` (base is the
resolved default branch "develop"). -/
def optsDevelop : PullRequestOptions :=
  ⟨"T", "D", "feature/x", "develop", ["automated-pr"]⟩

/-- A GitHub API stub whose create and label calls succeed. -/
def stubAPI : GitHubAPI :=
  ⟨fun _ _ _ _ _ _ => .ok ⟨7, "https://github.com/pr/7"⟩,
   fun _ _ _ _ => .ok ()⟩

/-- The visitor map with no buckets (the initial limiter state, and
its state right after `cleanupVisitors`). -/
def emptyVisitors : VisitorMap := fun _ => none

/-- A wrapped handler for exercising the rate-limit middleware. -/
def nextOk : Unit → Response × List CollabCall := fun _ => (⟨200, "ok"⟩, [])

/-! ## Helper lemmas -/

theorem hasPre_append (p x : List Char) : hasPre p (p ++ x) = true := by
  induction p with
  | nil => rfl
  | cons a as ih => simp [hasPre, ih]

theorem trimPre_append (pre x : String) : trimPre (pre ++ x) pre = x := by
  unfold trimPre
  rw [String.data_append, hasPre_append]
  simp

theorem gatherContext_calls (c : Collaborators) (o n db bn sha : String) :
    (gatherContext c o n db bn sha).2 = [CollabCall.getDiff o n db bn] ∨
    (gatherContext c o n db bn sha).2 =
      [CollabCall.getDiff o n db bn, CollabCall.getCommitMessage o n sha] := by
  unfold gatherContext
  cases c.getDiff o n db bn <;> simp

theorem gatherContext_changes_ne_nil (c : Collaborators) (o n db bn sha : String) :
    (gatherContext c o n db bn sha).1.changes ≠ [] := by
  unfold gatherContext
  cases c.getDiff o n db bn <;> simp

theorem gatherContext_diff_error (c : Collaborators) (o n db bn sha e : String)
    (h : c.getDiff o n db bn = .error e) :
    (gatherContext c o n db bn sha).1.commitMessage = fallbackCommitMessage c o n sha ∧
    (gatherContext c o n db bn sha).1.changes =
      [(bn, ⟨bn, [], [], [fallbackCommitMessage c o n sha]⟩)] := by
  unfold gatherContext
  rw [h]
  simp

theorem applyContributingGuide_changes (c : Collaborators) (o n : String) (i : RepoInfo) :
    (applyContributingGuide c o n i).changes = i.changes := by
  unfold applyContributingGuide
  cases c.getContributingGuide o n with
  | error e => rfl
  | ok g =>
      by_cases hg : g = "" <;> simp [hg]

theorem applyContributingGuide_commitMessage (c : Collaborators) (o n : String) (i : RepoInfo) :
    (applyContributingGuide c o n i).commitMessage = i.commitMessage := by
  unfold applyContributingGuide
  cases c.getContributingGuide o n with
  | error e => rfl
  | ok g =>
      by_cases hg : g = "" <;> simp [hg]

theorem mem_orchestrate_createPR (c : Collaborators) (cfg : Config) (bn sha : String)
    (opts : PullRequestOptions)
    (h : CollabCall.createPullRequest opts ∈ (orchestrate c cfg bn sha).2) :
    opts.branch = bn ∧
    opts.baseBranch = resolveDefaultBranch c cfg.owner cfg.name ∧
    opts.labels = ["automated-pr"] := by
  simp only [orchestrate] at h
  rcases gatherContext_calls c cfg.owner cfg.name
      (resolveDefaultBranch c cfg.owner cfg.name) bn sha with hc | hc <;>
    rw [hc] at h <;>
    split at h <;>
    (try split at h) <;>
    simp at h <;>
    simp [h]

theorem mem_orchestrate_generatePR (c : Collaborators) (cfg : Config) (bn sha : String)
    (info : RepoInfo)
    (h : CollabCall.generatePR info ∈ (orchestrate c cfg bn sha).2) :
    info = applyContributingGuide c cfg.owner cfg.name
      (gatherContext c cfg.owner cfg.name (resolveDefaultBranch c cfg.owner cfg.name)
        bn sha).1 := by
  simp only [orchestrate] at h
  rcases gatherContext_calls c cfg.owner cfg.name
      (resolveDefaultBranch c cfg.owner cfg.name) bn sha with hc | hc <;>
    rw [hc] at h <;>
    split at h <;>
    (try split at h) <;>
    simp at h <;>
    simp [h]

theorem orchestrate_generatePR_mem (c : Collaborators) (cfg : Config) (bn sha : String) :
    CollabCall.generatePR (applyContributingGuide c cfg.owner cfg.name
      (gatherContext c cfg.owner cfg.name (resolveDefaultBranch c cfg.owner cfg.name)
        bn sha).1) ∈ (orchestrate c cfg bn sha).2 := by
  simp only [orchestrate]
  split <;> (try split) <;> simp

theorem orchestrate_getDiff_mem (c : Collaborators) (cfg : Config) (bn sha : String) :
    CollabCall.getDiff cfg.owner cfg.name (resolveDefaultBranch c cfg.owner cfg.name) bn ∈
      (orchestrate c cfg bn sha).2 := by
  simp only [orchestrate]
  rcases gatherContext_calls c cfg.owner cfg.name
      (resolveDefaultBranch c cfg.owner cfg.name) bn sha with hc | hc <;>
    rw [hc] <;>
    split <;> (try split) <;> simp

theorem orchestrate_status (c : Collaborators) (cfg : Config) (bn sha : String) :
    (orchestrate c cfg bn sha).1.status = 200 ∨ (orchestrate c cfg bn sha).1.status = 500 := by
  simp only [orchestrate]
  split <;> (try split) <;> simp

theorem handlePush_init_ok (c : Collaborators) (tok ct : String) (cfg : Config)
    (ref sha : Option String) (u : Unit)
    (hinit : c.initGitHub tok cfg.owner cfg.name = .ok u) :
    handlePush c tok (some cfg) ⟨"POST", ct, .json ref sha⟩ =
      ((orchestrate c cfg (trimPre (ref.getD "") "refs/heads/") (sha.getD "")).1,
       CollabCall.initGitHub tok cfg.owner cfg.name ::
         (orchestrate c cfg (trimPre (ref.getD "") "refs/heads/") (sha.getD "")).2) := by
  simp only [handlePush, decodePushPayload]
  rw [hinit]
  simp

theorem handlePush_init_error (c : Collaborators) (tok ct : String) (cfg : Config)
    (ref sha : Option String) (e : String)
    (hinit : c.initGitHub tok cfg.owner cfg.name = .error e) :
    handlePush c tok (some cfg) ⟨"POST", ct, .json ref sha⟩ =
      (⟨500, "Failed to initialize GitHub"⟩,
       [CollabCall.initGitHub tok cfg.owner cfg.name]) := by
  simp only [handlePush, decodePushPayload]
  rw [hinit]
  simp

theorem mem_orchestrate_getDiff (c : Collaborators) (cfg : Config) (bn sha : String)
    (o2 n2 b h2 : String)
    (h : CollabCall.getDiff o2 n2 b h2 ∈ (orchestrate c cfg bn sha).2) :
    b = resolveDefaultBranch c cfg.owner cfg.name ∧ h2 = bn := by
  simp only [orchestrate] at h
  rcases gatherContext_calls c cfg.owner cfg.name
      (resolveDefaultBranch c cfg.owner cfg.name) bn sha with hc | hc <;>
    rw [hc] at h <;>
    split at h <;>
    (try split at h) <;>
    simp at h <;>
    simp [h]

/-- C3: a POST to `/push` while no configuration has been stored is
rejected with status 400 (a client error) carrying the not-configured
message, and no collaborator is called. -/
theorem push_unconfigured_rejected_without_calls (c : Collaborators)
    (tok ct : String) (body : PushBody) :
    handlePush c tok none ⟨"POST", ct, body⟩ =
      (⟨400, "Repository not configured. Please run ggquick start <repository-url> first"⟩,
       []) := by
  simp [handlePush]

/-- C4: for a JSON push payload with `ref = "refs/heads/" ++ X`, the
derived branch name is exactly `X`, and it is the branch used downstream:
every diff lookup uses it as the head and every pull-request creation
uses it as the branch. -/
theorem push_branch_derived_by_strip (c : Collaborators) (tok ct X sha : String)
    (cfg : Config) :
    trimPre ("refs/heads/" ++ X) "refs/heads/" = X ∧
    (∀ o2 n2 b h2, CollabCall.getDiff o2 n2 b h2 ∈
        (handlePush c tok (some cfg)
          ⟨"POST", ct, .json (some ("refs/heads/" ++ X)) (some sha)⟩).2 → h2 = X) ∧
    (∀ opts : PullRequestOptions, CollabCall.createPullRequest opts ∈
        (handlePush c tok (some cfg)
          ⟨"POST", ct, .json (some ("refs/heads/" ++ X)) (some sha)⟩).2 →
        opts.branch = X) := by
  refine ⟨trimPre_append "refs/heads/" X, ?_, ?_⟩ <;>
    rcases hinit : c.initGitHub tok cfg.owner cfg.name with e | u
  · intro o2 n2 b h2 h
    rw [handlePush_init_error c tok ct cfg _ _ e hinit] at h
    simp at h
  · intro o2 n2 b h2 h
    rw [handlePush_init_ok c tok ct cfg _ _ u hinit] at h
    simp only [List.mem_cons] at h
    rcases h with h | h
    · simp at h
    · have := mem_orchestrate_getDiff c cfg _ _ o2 n2 b h2 h
      simp only [Option.getD_some, trimPre_append] at this
      exact this.2
  · intro opts h
    rw [handlePush_init_error c tok ct cfg _ _ e hinit] at h
    simp at h
  · intro opts h
    rw [handlePush_init_ok c tok ct cfg _ _ u hinit] at h
    simp only [List.mem_cons] at h
    rcases h with h | h
    · simp at h
    · have := mem_orchestrate_createPR c cfg _ _ opts h
      simp only [Option.getD_some, trimPre_append] at this
      exact this.1

/-- C10: a syntactically valid JSON push body is accepted even with both
`ref` and `sha` absent: decoding yields empty strings, the derived
branch name is the empty string (TrimPrefix of a non-matching prefix
returns its input unchanged), and the configured handler proceeds into
the orchestration (first collaborator call made, no 400). -/
theorem push_accepts_empty_json_payload (c : Collaborators) (tok ct : String)
    (cfg : Config) (ref sha : Option String) :
    decodePushPayload (.json none none) = some ("", "") ∧
    trimPre "" "refs/heads/" = "" ∧
    ((handlePush c tok (some cfg) ⟨"POST", ct, .json ref sha⟩).1.status = 200 ∨
     (handlePush c tok (some cfg) ⟨"POST", ct, .json ref sha⟩).1.status = 500) ∧
    (∃ rest, (handlePush c tok (some cfg) ⟨"POST", ct, .json ref sha⟩).2 =
      CollabCall.initGitHub tok cfg.owner cfg.name :: rest) := by
  refine ⟨rfl, by decide, ?_, ?_⟩ <;>
    rcases hinit : c.initGitHub tok cfg.owner cfg.name with e | u
  · rw [handlePush_init_error c tok ct cfg _ _ e hinit]
    right
    rfl
  · rw [handlePush_init_ok c tok ct cfg _ _ u hinit]
    exact orchestrate_status c cfg _ _
  · rw [handlePush_init_error c tok ct cfg _ _ e hinit]
    exact ⟨[], rfl⟩
  · rw [handlePush_init_ok c tok ct cfg _ _ u hinit]
    exact ⟨_, rfl⟩

/-- C1: whenever the content generator is invoked by the push handler,
its `RepoInfo` has a non-empty changes map; when the diff lookup against
the resolved default branch failed, its commit message is the one
fetched for the pushed SHA, falling back to the fixed generic string
when that lookup fails too, and its changes map carries that message. -/
theorem push_diff_failure_fallback_context (c : Collaborators)
    (tok ct ref sha e : String) (cfg : Config) (info : RepoInfo)
    (hmem : CollabCall.generatePR info ∈
      (handlePush c tok (some cfg)
        ⟨"POST", ct, .json (some ref) (some sha)⟩).2) :
    info.changes ≠ [] ∧
    (c.getDiff cfg.owner cfg.name (resolveDefaultBranch c cfg.owner cfg.name)
        (trimPre ref "refs/heads/") = .error e →
      info.commitMessage = fallbackCommitMessage c cfg.owner cfg.name sha ∧
      info.changes = [(trimPre ref "refs/heads/",
        ⟨trimPre ref "refs/heads/", [], [],
         [fallbackCommitMessage c cfg.owner cfg.name sha]⟩)]) ∧
    (∀ e2, c.getCommitMessage cfg.owner cfg.name sha = .error e2 →
      fallbackCommitMessage c cfg.owner cfg.name sha =
        "feat: improve resilience in PR generation") := by
  rcases hinit : c.initGitHub tok cfg.owner cfg.name with e1 | u
  · rw [handlePush_init_error c tok ct cfg _ _ e1 hinit] at hmem
    simp at hmem
  · rw [handlePush_init_ok c tok ct cfg _ _ u hinit] at hmem
    simp only [List.mem_cons] at hmem
    rcases hmem with hmem | hmem
    · simp at hmem
    · have hinfo := mem_orchestrate_generatePR c cfg _ _ info hmem
      simp only [Option.getD_some] at hinfo
      subst hinfo
      refine ⟨?_, ?_, ?_⟩
      · rw [applyContributingGuide_changes]
        exact gatherContext_changes_ne_nil c cfg.owner cfg.name _ _ sha
      · intro hdiff
        have hg := gatherContext_diff_error c cfg.owner cfg.name _ _ sha e hdiff
        rw [applyContributingGuide_commitMessage, applyContributingGuide_changes]
        exact ⟨hg.1, hg.2⟩
      · intro e2 hcm
        unfold fallbackCommitMessage
        rw [hcm]

/-- C2: when the default-branch lookup fails, the push pipeline does not
abort: the resolved base branch is the literal "main", the diff is
attempted against "main", and any pull request created uses "main" as
its base branch. -/
theorem push_default_branch_fallback_main (c : Collaborators)
    (tok ct ref sha e : String) (cfg : Config) (u : Unit)
    (hdb : c.getDefaultBranch cfg.owner cfg.name = .error e)
    (hinit : c.initGitHub tok cfg.owner cfg.name = .ok u) :
    resolveDefaultBranch c cfg.owner cfg.name = "main" ∧
    CollabCall.getDiff cfg.owner cfg.name "main" (trimPre ref "refs/heads/") ∈
      (handlePush c tok (some cfg)
        ⟨"POST", ct, .json (some ref) (some sha)⟩).2 ∧
    (∀ opts : PullRequestOptions, CollabCall.createPullRequest opts ∈
        (handlePush c tok (some cfg)
          ⟨"POST", ct, .json (some ref) (some sha)⟩).2 →
      opts.baseBranch = "main") := by
  have hres : resolveDefaultBranch c cfg.owner cfg.name = "main" := by
    unfold resolveDefaultBranch
    rw [hdb]
  refine ⟨hres, ?_, ?_⟩
  · rw [handlePush_init_ok c tok ct cfg _ _ u hinit]
    refine List.mem_cons_of_mem _ ?_
    have := orchestrate_getDiff_mem c cfg
      (trimPre ((some ref).getD "") "refs/heads/") ((some sha).getD "")
    rw [hres] at this
    simpa using this
  · intro opts h
    rw [handlePush_init_ok c tok ct cfg _ _ u hinit] at h
    simp only [List.mem_cons] at h
    rcases h with h | h
    · simp at h
    · have := mem_orchestrate_createPR c cfg _ _ opts h
      rw [hres] at this
      exact this.2.1

/-- C1 witness: under collaborators whose default-branch, diff and
commit-message lookups all fail, the generator receives exactly the
two-level fallback context. -/
theorem push_diff_failure_fallback_context_witness :
    infoAllFallback.changes ≠ [] ∧
    infoAllFallback.commitMessage =
      fallbackCommitMessage failingCollabs cfg0.owner cfg0.name "abc123" ∧
    infoAllFallback.changes = [(trimPre "refs/heads/feature/x" "refs/heads/",
      ⟨trimPre "refs/heads/feature/x" "refs/heads/", [], [],
       [fallbackCommitMessage failingCollabs cfg0.owner cfg0.name "abc123"]⟩)] ∧
    fallbackCommitMessage failingCollabs cfg0.owner cfg0.name "abc123" =
      "feat: improve resilience in PR generation" := by
  have h := push_diff_failure_fallback_context failingCollabs "tok"
    "application/json" "refs/heads/feature/x" "abc123" "no diff" cfg0
    infoAllFallback (by decide)
  exact ⟨h.1, (h.2.1 (by decide)).1, (h.2.1 (by decide)).2,
    h.2.2 "no commit" (by decide)⟩

/-- C2 witness: with a failing default-branch lookup the concrete push
run resolves "main", diffs against "main", and the submitted options use
"main" as base. -/
theorem push_default_branch_fallback_main_witness :
    resolveDefaultBranch failingCollabs cfg0.owner cfg0.name = "main" ∧
    CollabCall.getDiff cfg0.owner cfg0.name "main"
        (trimPre "refs/heads/feature/x" "refs/heads/") ∈
      (handlePush failingCollabs "tok" (some cfg0)
        ⟨"POST", "application/json",
         .json (some "refs/heads/feature/x") (some "abc123")⟩).2 ∧
    optsMain.baseBranch = "main" := by
  have h := push_default_branch_fallback_main failingCollabs "tok"
    "application/json" "refs/heads/feature/x" "abc123" "unavailable" cfg0 ()
    (by decide) (by decide)
  exact ⟨h.1, h.2.1, h.2.2 optsMain (by decide)⟩

/-- C4 witness: pushing `refs/heads/feature/x` derives branch
`feature/x`, and the concrete pull request submitted carries it. -/
theorem push_branch_derived_by_strip_witness :
    trimPre ("refs/heads/" ++ "feature/x") "refs/heads/" = "feature/x" ∧
    optsDevelop.branch = "feature/x" := by
  have h := push_branch_derived_by_strip stubCollabs "tok" "application/json"
    "feature/x" "abc123" cfg0
  exact ⟨h.1, h.2.2 optsDevelop (by decide)⟩

/-- C6 counterexample: a valid configuration POST is stored and answered
200, but the response body is the empty string — not a JSON object
carrying status, owner and name — and the handler, which like
server.go:143-173 has no access to the code host, resolves and persists
no default branch (the stored `Config` has no such field). -/
theorem config_empty_body_no_collaborator :
    handleConfig none
        ⟨"POST", .json "https://github.com/acme/widgets.git" "" ""⟩ =
      (⟨200, ""⟩,
       some ⟨"https://github.com/acme/widgets.git", "acme", "widgets"⟩) := by
  decide

/-- C6 amended: a POST /config whose body decodes stores the
configuration — owner and name taken verbatim when both non-empty,
otherwise the last two slash-segments of the URL (with a trailing .git
stripped) — and responds 200 with an empty body; no code-host call
happens and no default branch is resolved or persisted. -/
theorem config_stores_and_responds_200_empty (st : Option Config)
    (url ow nm : String) :
    (¬(ow = "" ∨ nm = "") →
      handleConfig st ⟨"POST", .json url ow nm⟩ =
        (⟨200, ""⟩, some ⟨url, ow, nm⟩)) ∧
    ((ow = "" ∨ nm = "") →
      ¬((splitChar '/' (trimSuf url ".git")).length < 2) →
      handleConfig st ⟨"POST", .json url ow nm⟩ =
        (⟨200, ""⟩,
         some ⟨url,
           (splitChar '/' (trimSuf url ".git")).getD
             ((splitChar '/' (trimSuf url ".git")).length - 2) "",
           (splitChar '/' (trimSuf url ".git")).getD
             ((splitChar '/' (trimSuf url ".git")).length - 1) ""⟩)) := by
  refine ⟨fun h => ?_, fun h hlen => ?_⟩
  · simp [handleConfig, h]
  · simp [handleConfig, h, hlen]

/-- C6 amended witness: the example URL of the spec is normalized and
stored. -/
theorem config_stores_and_responds_200_empty_witness :
    handleConfig none
        ⟨"POST", .json "https://github.com/acme/widgets.git" "" ""⟩ =
      (⟨200, ""⟩,
       some ⟨"https://github.com/acme/widgets.git",
         (splitChar '/' (trimSuf "https://github.com/acme/widgets.git" ".git")).getD
           ((splitChar '/' (trimSuf "https://github.com/acme/widgets.git" ".git")).length - 2) "",
         (splitChar '/' (trimSuf "https://github.com/acme/widgets.git" ".git")).getD
           ((splitChar '/' (trimSuf "https://github.com/acme/widgets.git" ".git")).length - 1) ""⟩) := by
  exact (config_stores_and_responds_200_empty none
    "https://github.com/acme/widgets.git" "" "").2 (by decide) (by decide)

/-- C8 counterexample: the URL "a/" survives the at-least-two-segments
check with segments ["a", ""], so a configuration whose stored name is
the empty string is accepted and stored. -/
theorem config_stores_empty_name :
    handleConfig none ⟨"POST", .json "a/" "" ""⟩ =
      (⟨200, ""⟩, some ⟨"a/", "a", ""⟩) := by
  decide

/-- C8 amended: a stored configuration has non-empty owner and name
provided the request supplied both non-empty, or the last two
slash-segments of the (``.git``-stripped) URL are non-empty. -/
theorem config_nonempty_owner_name (st : Option Config) (url ow nm : String)
    (c2 : Config)
    (hok : (handleConfig st ⟨"POST", .json url ow nm⟩).1.status = 200)
    (hstore : (handleConfig st ⟨"POST", .json url ow nm⟩).2 = some c2)
    (hne : (ow ≠ "" ∧ nm ≠ "") ∨
      ((splitChar '/' (trimSuf url ".git")).getD
          ((splitChar '/' (trimSuf url ".git")).length - 2) "" ≠ "" ∧
       (splitChar '/' (trimSuf url ".git")).getD
          ((splitChar '/' (trimSuf url ".git")).length - 1) "" ≠ "")) :
    c2.owner ≠ "" ∧ c2.name ≠ "" := by
  by_cases h : ow = "" ∨ nm = ""
  · by_cases hlen : (splitChar '/' (trimSuf url ".git")).length < 2
    · simp [handleConfig, h, hlen] at hok
    · simp [handleConfig, h, hlen] at hstore
      rcases hne with ⟨h1, h2⟩ | ⟨h1, h2⟩
      · rcases h with h | h
        · exact absurd h h1
        · exact absurd h h2
      · rw [← hstore]
        exact ⟨by simpa using h1, by simpa using h2⟩
  · simp [handleConfig, h] at hstore
    push_neg at h
    rw [← hstore]
    exact h

/-- C8 amended witness: the example URL of the spec stores non-empty owner
and name. -/
theorem config_nonempty_owner_name_witness :
    (⟨"https://github.com/acme/widgets.git", "acme", "widgets"⟩ : Config).owner ≠ "" ∧
    (⟨"https://github.com/acme/widgets.git", "acme", "widgets"⟩ : Config).name ≠ "" := by
  exact config_nonempty_owner_name none "https://github.com/acme/widgets.git" "" ""
    ⟨"https://github.com/acme/widgets.git", "acme", "widgets"⟩
    (by decide) (by decide) (Or.inr ⟨by decide, by decide⟩)

/-- C7 counterexample: the current push handler rejects a plain-text
body whose first line is a commit SHA with 400 "Invalid payload" and
makes no collaborator call — it does not synthesize a branch from the
SHA, so the two-encoding decode does not hold of every POST /push. -/
theorem push_plain_text_rejected :
    handlePush stubCollabs "tok" (some cfg0)
        ⟨"POST", "text/plain", .text ["abc123"]⟩ =
      (⟨400, "Invalid payload"⟩, []) := by
  decide

/-- C7 amended: the current handler (server.go) ignores the Content-Type
header, decodes every body as the PushEvent JSON form and rejects
non-JSON bodies with 400; the two-encoding decode — JSON when the
Content-Type starts with application/json, otherwise plain text whose
first line is the SHA, with the ref synthesized as refs/heads/<sha> —
exists only in the superseded iteration unnamed/part_002. -/
theorem push_decode_json_only_part002_two_encodings (c : Collaborators)
    (tok ct ct2 : String) (st : Option Config) (body : PushBody)
    (cfg : Config) (lines : List String) (ref a b2 : String) (raw : RawBody)
    (hct : hasPre "application/json".data ct2.data = false) :
    handlePush c tok st ⟨"POST", ct, body⟩ =
      handlePush c tok st ⟨"POST", ct2, body⟩ ∧
    handlePush c tok (some cfg) ⟨"POST", ct, .text lines⟩ =
      (⟨400, "Invalid payload"⟩, []) ∧
    part002ParsePush "application/json" ⟨lines, some (ref, a, b2)⟩ =
      .ok (ref, a) ∧
    part002ParsePush ct2 raw =
      .ok ("refs/heads/" ++ raw.lines.headD "", raw.lines.headD "") := by
  refine ⟨rfl, by simp [handlePush, decodePushPayload], ?_, ?_⟩
  · have hj : hasPre "application/json".data "application/json".data = true := by
      decide
    simp [part002ParsePush, hj]
  · simp [part002ParsePush, hct]

/-- C7 amended witness: a concrete text/plain body goes through the
legacy branch of part_002 and through the 400 path of the current
handler. -/
theorem push_decode_json_only_part002_two_encodings_witness :
    handlePush stubCollabs "tok" (some cfg0)
        ⟨"POST", "application/json", .text ["abc123"]⟩ =
      handlePush stubCollabs "tok" (some cfg0)
        ⟨"POST", "text/plain", .text ["abc123"]⟩ ∧
    handlePush stubCollabs "tok" (some cfg0)
        ⟨"POST", "application/json", .text ["abc123"]⟩ =
      (⟨400, "Invalid payload"⟩, []) ∧
    part002ParsePush "application/json" ⟨["abc123"], some ("refs/heads/x", "abc123", "def456")⟩ =
      .ok ("refs/heads/x", "abc123") ∧
    part002ParsePush "text/plain" ⟨["abc123"], none⟩ =
      .ok ("refs/heads/" ++ (["abc123"] : List String).headD "",
           (["abc123"] : List String).headD "") := by
  exact push_decode_json_only_part002_two_encodings stubCollabs "tok"
    "application/json" "text/plain" (some cfg0) (.text ["abc123"]) cfg0
    ["abc123"] "refs/heads/x" "abc123" "def456" ⟨["abc123"], none⟩ (by decide)

/-- C9: every pull-request creation submitted by the push handler
carries the pushed branch, the resolved default branch as base and
exactly the fixed label set; and the hooks manager, when the underlying
create and label calls succeed, returns the created pull request (its
number and URL) as the operation result. -/
theorem push_create_pr_options_and_result (c : Collaborators)
    (tok ct ref sha : String) (cfg : Config) (opts opts2 : PullRequestOptions)
    (api : GitHubAPI) (o2 r2 : String) (pr : PullRequest) (u : Unit)
    (hmem : CollabCall.createPullRequest opts ∈
      (handlePush c tok (some cfg)
        ⟨"POST", ct, .json (some ref) (some sha)⟩).2)
    (hcreate : api.create o2 r2 opts2.title opts2.description opts2.branch
      opts2.baseBranch = .ok pr)
    (hlabels : api.addLabels o2 r2 pr.number opts2.labels = .ok u) :
    opts.branch = trimPre ref "refs/heads/" ∧
    opts.baseBranch = resolveDefaultBranch c cfg.owner cfg.name ∧
    opts.labels = ["automated-pr"] ∧
    managerCreatePullRequest (some (api, o2, r2)) opts2 = .ok pr := by
  rcases hinit : c.initGitHub tok cfg.owner cfg.name with e | u2
  · rw [handlePush_init_error c tok ct cfg _ _ e hinit] at hmem
    simp at hmem
  · rw [handlePush_init_ok c tok ct cfg _ _ u2 hinit] at hmem
    simp only [List.mem_cons] at hmem
    rcases hmem with hmem | hmem
    · simp at hmem
    · have h1 := mem_orchestrate_createPR c cfg _ _ opts hmem
      simp only [Option.getD_some] at h1
      refine ⟨h1.1, h1.2.1, h1.2.2, ?_⟩
      simp only [managerCreatePullRequest, hcreate]
      by_cases hl : 0 < opts2.labels.length
      · simp only [if_pos hl, hlabels]
      · simp only [if_neg hl]

/-- C9 witness: under the all-success stub, the submitted options are
(feature/x, develop, automated-pr) and the manager returns PR number 7
with its URL. -/
theorem push_create_pr_options_and_result_witness :
    optsDevelop.branch = trimPre "refs/heads/feature/x" "refs/heads/" ∧
    optsDevelop.baseBranch = resolveDefaultBranch stubCollabs cfg0.owner cfg0.name ∧
    optsDevelop.labels = ["automated-pr"] ∧
    managerCreatePullRequest (some (stubAPI, "acme", "widgets")) optsDevelop =
      .ok ⟨7, "https://github.com/pr/7"⟩ := by
  exact push_create_pr_options_and_result stubCollabs "tok" "application/json"
    "refs/heads/feature/x" "abc123" cfg0 optsDevelop optsDevelop stubAPI
    "acme" "widgets" ⟨7, "https://github.com/pr/7"⟩ ()
    (by decide) (by decide) (by decide)

theorem allow_last (l : Limiter) (h : l.tokens ≤ (limiterBurst : ℚ)) :
    allow l l.last =
      if 1 ≤ l.tokens then (true, ⟨l.tokens - 1, l.last⟩) else (false, l) := by
  have hadv : advance l l.last = l.tokens := by
    simp only [advance]
    rw [sub_self, zero_mul, add_zero, if_neg (not_lt.2 h)]
  obtain ⟨tk, la⟩ := l
  simp only [allow, hadv]

theorem range_map_decide_succ (n k : ℕ) (hk : 1 ≤ k) :
    (List.range (n + 1)).map (fun j => decide (j < k)) =
      true :: (List.range n).map (fun j => decide (j < k - 1)) := by
  rw [List.range_succ_eq_map]
  simp only [List.map_cons, List.map_map]
  refine congrArg₂ _ ?_ ?_
  · simp only [decide_eq_true_eq]
    omega
  · refine List.map_congr_left ?_
    intro j _
    simp only [Function.comp_apply]
    rw [decide_eq_decide]
    omega

theorem range_map_decide_zero (n : ℕ) :
    (List.range (n + 1)).map (fun j => decide (j < 0)) =
      false :: (List.range n).map (fun j => decide (j < 0)) := by
  rw [List.range_succ_eq_map]
  simp

theorem runSame_of_bucket (ip : String) (t : ℚ) (n : ℕ) :
    ∀ (k : ℕ) (m : VisitorMap), k ≤ limiterBurst → m ip = some ⟨(k : ℚ), t⟩ →
      (runSame ip t n m).2 = (List.range n).map (fun j => decide (j < k)) := by
  induction n with
  | zero => intro k m hk hm; simp [runSame]
  | succ n ih =>
      intro k m hk hm
      have hknotlt : ¬ ((limiterBurst : ℚ) < (k : ℚ)) := by
        rw [not_lt]
        exact_mod_cast hk
      have hadv : advance ⟨(k : ℚ), t⟩ t = (k : ℚ) := by
        simp only [advance]
        rw [sub_self, zero_mul, add_zero, if_neg hknotlt]
      by_cases hk1 : 1 ≤ (k : ℚ)
      · have hk1n : 1 ≤ k := by exact_mod_cast hk1
        have hcast : (k : ℚ) - 1 = ((k - 1 : ℕ) : ℚ) := by
          push_cast [hk1n]
          ring
        have hm2 : (rateLimitAllow m ip t).2 ip = some ⟨((k - 1 : ℕ) : ℚ), t⟩ := by
          simp only [rateLimitAllow, getVisitor, hm, allow, hadv]
          rw [if_pos hk1]
          simp [hcast]
        have htail := ih (k - 1) (rateLimitAllow m ip t).2
          (le_trans (Nat.sub_le k 1) hk) hm2
        have hfst : (rateLimitAllow m ip t).1 = true := by
          simp only [rateLimitAllow, getVisitor, hm, allow, hadv]
          rw [if_pos hk1]
        have : (runSame ip t (n + 1) m).2 =
            (rateLimitAllow m ip t).1 :: (runSame ip t n (rateLimitAllow m ip t).2).2 := by
          simp only [runSame]
        rw [this, hfst, htail, range_map_decide_succ n k hk1n]
      · have hk0 : k = 0 := by
          have : (k : ℚ) < 1 := not_le.1 hk1
          have : k < 1 := by exact_mod_cast this
          omega
        subst hk0
        have hm2 : (rateLimitAllow m ip t).2 ip = some ⟨((0 : ℕ) : ℚ), t⟩ := by
          simp only [rateLimitAllow, getVisitor, hm, allow, hadv]
          rw [if_neg hk1]
          simp
        have htail := ih 0 (rateLimitAllow m ip t).2 (Nat.zero_le _) hm2
        have hfst : (rateLimitAllow m ip t).1 = false := by
          simp only [rateLimitAllow, getVisitor, hm, allow, hadv]
          rw [if_neg hk1]
        have : (runSame ip t (n + 1) m).2 =
            (rateLimitAllow m ip t).1 :: (runSame ip t n (rateLimitAllow m ip t).2).2 := by
          simp only [runSame]
        rw [this, hfst, htail, range_map_decide_zero n]

theorem runSame_fresh (ip : String) (t : ℚ) (n : ℕ) (m : VisitorMap)
    (hm : m ip = none) :
    (runSame ip t n m).2 =
      (List.range n).map (fun j => decide (j < limiterBurst)) := by
  cases n with
  | zero => simp [runSame]
  | succ n =>
      have hm2 : (rateLimitAllow m ip t).2 ip = some ⟨((9 : ℕ) : ℚ), t⟩ := by
        norm_num [rateLimitAllow, getVisitor, hm, allow, advance, newLimiter,
          limiterBurst, limiterRate]
      have hfst : (rateLimitAllow m ip t).1 = true := by
        norm_num [rateLimitAllow, getVisitor, hm, allow, advance, newLimiter,
          limiterBurst, limiterRate]
      have htail := runSame_of_bucket ip t n 9 (rateLimitAllow m ip t).2
        (by norm_num [limiterBurst]) hm2
      have hstep : (runSame ip t (n + 1) m).2 =
          (rateLimitAllow m ip t).1 :: (runSame ip t n (rateLimitAllow m ip t).2).2 := by
        simp only [runSame]
      rw [hstep, hfst, htail]
      have := range_map_decide_succ n limiterBurst (by norm_num [limiterBurst])
      rw [this]
      norm_num [limiterBurst]

theorem rateLimitAllow_other (m : VisitorMap) (ip k2 : String) (t : ℚ)
    (hk : k2 ≠ ip) :
    (rateLimitAllow m ip t).2 k2 = m k2 := by
  simp only [rateLimitAllow, getVisitor]
  cases hm : m ip with
  | some l => simp [hk]
  | none => simp [hk]

theorem advance_refill (q t : ℚ) (hq : 0 ≤ q) :
    advance ⟨q, t⟩ (t + 2) = (limiterBurst : ℚ) := by
  simp only [advance]
  have h2 : (t + 2 - t) * limiterRate = 10 := by
    norm_num [limiterRate]
  rw [h2]
  by_cases h : (limiterBurst : ℚ) < q + 10
  · rw [if_pos h]
  · rw [if_neg h]
    norm_num [limiterBurst] at h ⊢
    linarith

theorem allow_reject_unchanged (l : Limiter) (t3 : ℚ)
    (h : l.tokens ≤ (limiterBurst : ℚ)) (hlast : l.last = t3)
    (hrej : (allow l t3).1 = false) : (allow l t3).2 = l := by
  subst hlast
  rw [allow_last l h] at hrej ⊢
  by_cases h1 : 1 ≤ l.tokens
  · rw [if_pos h1] at hrej
    exact absurd hrej (by simp)
  · rw [if_neg h1]

theorem rateLimit_reject (m : VisitorMap) (ip : String) (t : ℚ)
    (next : Unit → Response × List CollabCall)
    (h : (rateLimitAllow m ip t).1 = false) :
    rateLimit m ip t next =
      (⟨429, "Rate limit exceeded"⟩, (rateLimitAllow m ip t).2, []) := by
  simp only [rateLimit, h]
  rw [if_neg (by simp)]

/-- C5: from a fresh bucket, a same-instant sequence of requests for one
key admits exactly the first `limiterBurst` and rejects the rest (the
middleware answering 429 without running the wrapped handler on a
rejection); a pass for one key leaves the bucket of every other key
untouched; a bucket refills to the full burst after a full refill
interval (2 seconds at 5 tokens/second); and a rejected request leaves
the bucket state unchanged. -/
theorem rate_limiter_burst_refill_isolation (m m2 m3 : VisitorMap)
    (ip k2 : String) (t t3 : ℚ) (n : ℕ) (l : Limiter) (q : ℚ)
    (next : Unit → Response × List CollabCall)
    (hm : m ip = none) (hk : k2 ≠ ip) (hq : 0 ≤ q)
    (hl : l.tokens ≤ (limiterBurst : ℚ)) (hlast : l.last = t3) :
    (runSame ip t n m).2 =
      (List.range n).map (fun j => decide (j < limiterBurst)) ∧
    (rateLimitAllow m2 ip t).2 k2 = m2 k2 ∧
    advance ⟨q, t⟩ (t + 2) = (limiterBurst : ℚ) ∧
    ((allow l t3).1 = false → (allow l t3).2 = l) ∧
    ((rateLimitAllow m3 ip t).1 = false →
      rateLimit m3 ip t next =
        (⟨429, "Rate limit exceeded"⟩, (rateLimitAllow m3 ip t).2, [])) :=
  ⟨runSame_fresh ip t n m hm, rateLimitAllow_other m2 ip k2 t hk,
   advance_refill q t hq,
   fun hrej => allow_reject_unchanged l t3 hl hlast hrej,
   fun h3 => rateLimit_reject m3 ip t next h3⟩

/-- C5 witness: eleven same-instant requests from a fresh key admit ten
and reject the eleventh; the other conjuncts instantiated at an empty
bucket at time 0. -/
theorem rate_limiter_burst_refill_isolation_witness :
    (runSame "1.2.3.4" 0 11 emptyVisitors).2 =
      (List.range 11).map (fun j => decide (j < limiterBurst)) ∧
    (rateLimitAllow emptyVisitors "1.2.3.4" 0).2 "5.6.7.8" =
      emptyVisitors "5.6.7.8" ∧
    advance ⟨0, 0⟩ (0 + 2) = (limiterBurst : ℚ) ∧
    ((allow ⟨0, 0⟩ 0).1 = false → (allow ⟨0, 0⟩ 0).2 = ⟨0, 0⟩) ∧
    ((rateLimitAllow emptyVisitors "1.2.3.4" 0).1 = false →
      rateLimit emptyVisitors "1.2.3.4" 0 nextOk =
        (⟨429, "Rate limit exceeded"⟩,
         (rateLimitAllow emptyVisitors "1.2.3.4" 0).2, [])) := by
  exact rate_limiter_burst_refill_isolation emptyVisitors emptyVisitors
    emptyVisitors "1.2.3.4" "5.6.7.8" 0 0 11 ⟨0, 0⟩ 0 nextOk rfl (by decide)
    (by norm_num) (by norm_num [limiterBurst]) rfl

end GGQuick
